import Mathlib

/-!
Verification of `botorch/acquisition/input_constructors.py`: a shallow
embedding of the acquisition-function input-constructor registry and of the
per-acquisition-function argument-derivation routines, together with theorems
settling the specified properties. Tensors are modelled as lists of rationals
(rows of outcomes / design points), Python dicts as association lists with
in-place-overwrite update, and raising as returning `Except.error`.
-/

set_option linter.unusedVariables false

/-- The errors raised by the embedded code, tagged by the Python exception
class and carrying the message. -/
inductive BotorchError where
  | notImplemented (msg : String)
  | unsupported (msg : String)
  | runtimeError (msg : String)
  | valueError (msg : String)
deriving DecidableEq

/-- Message of `get_acqf_input_constructor` for an unregistered class
(the source interpolates the class name; the static text is kept). -/
def registryLookupMsg : String :=
  "Input constructor for acquisition class not registered. Use the acqf_input_constructor decorator to register a new method."

/-- Message of `acqf_input_constructor` on a duplicate registration. -/
def duplicateRegMsg : String :=
  "Cannot register duplicate arg constructor for acquisition class"

/-- Lookup in a Python dict modelled as an association list (first match). -/
def dictGet {α β : Type} [DecidableEq α] : List (α × β) → α → Option β
  | [], _ => none
  | p :: t, k => if p.1 = k then some p.2 else dictGet t k

/-- Python `k in d` membership test. -/
def dictContains {α β : Type} [DecidableEq α] (d : List (α × β)) (k : α) : Bool :=
  (dictGet d k).isSome

/-- Python `d[k] = v`: overwrite the existing entry in place, else append. -/
def dictSet {α β : Type} [DecidableEq α] : List (α × β) → α → β → List (α × β)
  | [], k, v => [(k, v)]
  | p :: t, k, v => if p.1 = k then (k, v) :: t else p :: dictSet t k v

/-- Embedding of `get_acqf_input_constructor`: look the class up in the
registry, raising a `RuntimeError` when it is absent. The registry is passed
explicitly (the source keeps it in the module-level dict
`ACQF_INPUT_CONSTRUCTOR_REGISTRY`). -/
def get_acqf_input_constructor {α β : Type} [DecidableEq α]
    (registry : List (α × β)) (acqf_cls : α) : Except BotorchError β :=
  match dictGet registry acqf_cls with
  | none => Except.error (BotorchError.runtimeError registryLookupMsg)
  | some f => Except.ok f

/-- Embedding of `_register_acqf_input_constructor`: unconditional insertion
into the registry. -/
def _register_acqf_input_constructor {α β : Type} [DecidableEq α]
    (registry : List (α × β)) (acqf_cls : α) (input_constructor : β) :
    List (α × β) :=
  dictSet registry acqf_cls input_constructor

/-- The registration loop of the decorator returned by
`acqf_input_constructor`: each class is registered through
`_register_acqf_input_constructor` and then assigned directly, as in the
source. -/
def registerAll {α β : Type} [DecidableEq α]
    (registry : List (α × β)) (classes : List α) (method : β) :
    List (α × β) :=
  classes.foldl
    (fun r c => dictSet (_register_acqf_input_constructor r c method) c method)
    registry

/-- Embedding of the `acqf_input_constructor` decorator applied to a method,
as at every registration site in the source: first the duplicate check over
all the classes, then (only if no class was already registered) the
registration loop. Returns the updated registry. -/
def acqf_input_constructor {α β : Type} [DecidableEq α]
    (registry : List (α × β)) (classes : List α) (method : β) :
    Except BotorchError (List (α × β)) :=
  if classes.any (fun c => dictContains registry c) then
    Except.error (BotorchError.valueError duplicateRegMsg)
  else
    Except.ok (registerAll registry classes method)

theorem dictGet_dictSet {α β : Type} [DecidableEq α]
    (d : List (α × β)) (k j : α) (v : β) :
    dictGet (dictSet d k v) j = if j = k then some v else dictGet d j := by
  induction d with
  | nil =>
    by_cases h : j = k
    · subst h; simp [dictSet, dictGet]
    · have hkj : ¬(k = j) := fun hh => h hh.symm
      simp [dictSet, dictGet, h, hkj]
  | cons p t ih =>
    by_cases hpk : p.1 = k
    · by_cases hjk : j = k
      · subst hjk; simp [dictSet, dictGet, hpk]
      · simp only [dictSet, hpk, if_pos]
        have hkj : ¬(k = j) := fun hh => hjk hh.symm
        have hpj : ¬(p.1 = j) := by rw [hpk]; exact hkj
        simp [dictGet, hkj, hjk, hpj]
    · by_cases hjk : j = k
      · subst hjk
        have hpj : ¬(p.1 = j) := hpk
        simp [dictSet, dictGet, hpk, hpj, ih]
      · by_cases hpj : p.1 = j
        · simp [dictSet, dictGet, hpk, hpj, hjk]
        · simp [dictSet, dictGet, hpk, hpj, hjk, ih]

theorem dictGet_registerAll {α β : Type} [DecidableEq α]
    (classes : List α) (d : List (α × β)) (m : β) (c : α) :
    dictGet (registerAll d classes m) c =
      if c ∈ classes then some m else dictGet d c := by
  induction classes generalizing d with
  | nil => simp [registerAll]
  | cons a t ih =>
    have step :
        registerAll d (a :: t) m =
          registerAll (dictSet (_register_acqf_input_constructor d a m) a m) t m := by
      simp [registerAll, List.foldl_cons]
    rw [step, ih]
    by_cases hct : c ∈ t
    · simp [hct, List.mem_cons]
    · by_cases hca : c = a
      · subst hca
        simp [hct, List.mem_cons, _register_acqf_input_constructor,
          dictGet_dictSet]
      · simp [hct, hca, List.mem_cons, _register_acqf_input_constructor,
          dictGet_dictSet]

theorem registerAll_fresh_ok {α β : Type} [DecidableEq α]
    (registry : List (α × β)) (classes : List α) (method : β)
    (h : classes.any (fun c => dictContains registry c) = false) :
    acqf_input_constructor registry classes method =
      Except.ok (registerAll registry classes method) := by
  simp [acqf_input_constructor, h]

theorem acqf_input_constructor_ok_elim {α β : Type} [DecidableEq α]
    {registry r2 : List (α × β)} {classes : List α} {method : β}
    (h : acqf_input_constructor registry classes method = Except.ok r2) :
    classes.any (fun c => dictContains registry c) = false ∧
      r2 = registerAll registry classes method := by
  by_cases hc : classes.any (fun c => dictContains registry c)
  · simp [acqf_input_constructor, hc] at h
  · refine ⟨by simpa using hc, ?_⟩
    simp only [acqf_input_constructor, hc, if_neg, Bool.false_eq_true,
      not_false_iff, if_false, Except.ok.injEq] at h
    exact h.symm

/-- C1: for every acquisition-function class registered with a constructor
function, `get_acqf_input_constructor` returns exactly that function — both
right after the registration and after any further successful registrations —
and for every class not in the registry it raises the descriptive
`RuntimeError` instead of returning anything. -/
theorem claim_C1_registry_lookup {α β : Type} [DecidableEq α]
    (registry r2 : List (α × β)) (classes : List α) (method : β) (c : α) :
    (acqf_input_constructor registry classes method = Except.ok r2 →
      c ∈ classes →
      get_acqf_input_constructor r2 c = Except.ok method) ∧
    (dictContains registry c = false →
      get_acqf_input_constructor registry c =
        Except.error (BotorchError.runtimeError registryLookupMsg)) ∧
    (∀ f : β, get_acqf_input_constructor registry c = Except.ok f →
      acqf_input_constructor registry classes method = Except.ok r2 →
      get_acqf_input_constructor r2 c = Except.ok f) := by
  refine ⟨?_, ?_, ?_⟩
  · intro hok hmem
    obtain ⟨-, hr2⟩ := acqf_input_constructor_ok_elim hok
    subst hr2
    simp [get_acqf_input_constructor, dictGet_registerAll, hmem]
  · intro hnone
    have : dictGet registry c = none := by
      cases hg : dictGet registry c with
      | none => rfl
      | some f => simp [dictContains, hg] at hnone
    simp [get_acqf_input_constructor, this]
  · intro f hget hok
    obtain ⟨hfresh, hr2⟩ := acqf_input_constructor_ok_elim hok
    subst hr2
    have hgetsome : dictGet registry c = some f := by
      cases hg : dictGet registry c with
      | none => simp [get_acqf_input_constructor, hg] at hget
      | some g =>
        simp only [get_acqf_input_constructor, hg, Except.ok.injEq] at hget
        rw [hget]
    have hcnot : c ∉ classes := by
      intro hmem
      have : dictContains registry c = true := by
        simp [dictContains, hgetsome]
      have := List.any_eq_false.mp (by simpa using hfresh) c hmem
      simp [dictContains, hgetsome] at this
    simp [get_acqf_input_constructor, dictGet_registerAll, hcnot, hgetsome]

/-- Witness for C1: registering class `7` with constructor `42` in the empty
registry makes lookup return `42`, an unregistered class `9` fails with the
descriptive error, and the entry for `7` survives a later registration of
class `9`. -/
theorem claim_C1_registry_lookup_witness :
    get_acqf_input_constructor (registerAll ([] : List (ℕ × ℕ)) [7] 42) 7 =
        Except.ok 42 ∧
      get_acqf_input_constructor ([] : List (ℕ × ℕ)) 9 =
        Except.error (BotorchError.runtimeError registryLookupMsg) ∧
      get_acqf_input_constructor
          (registerAll (registerAll ([] : List (ℕ × ℕ)) [7] 42) [9] 5) 7 =
        Except.ok 42 := by
  refine ⟨?_, ?_, ?_⟩
  · exact (claim_C1_registry_lookup ([] : List (ℕ × ℕ))
      (registerAll ([] : List (ℕ × ℕ)) [7] 42) [7] 42 7).1 rfl (by decide)
  · exact (claim_C1_registry_lookup ([] : List (ℕ × ℕ)) [] [] 0 9).2.1 (by decide)
  · exact (claim_C1_registry_lookup (registerAll ([] : List (ℕ × ℕ)) [7] 42)
      (registerAll (registerAll ([] : List (ℕ × ℕ)) [7] 42) [9] 5) [9] 5 7).2.2
      42 rfl rfl

/-- C2: registering a constructor for an already-registered class always
fails with the duplicate-registration `ValueError`, whatever other classes
have been registered in between, and a successful registration never replaces
the existing entry of an already-registered class. -/
theorem claim_C2_duplicate_registration {α β : Type} [DecidableEq α]
    (registry : List (α × β)) (classes : List α) (method : β) (c : α)
    (hc : dictContains registry c = true) :
    (c ∈ classes →
      acqf_input_constructor registry classes method =
        Except.error (BotorchError.valueError duplicateRegMsg)) ∧
    (∀ r2 : List (α × β),
      acqf_input_constructor registry classes method = Except.ok r2 →
      dictGet r2 c = dictGet registry c) := by
  constructor
  · intro hmem
    have hany : classes.any (fun x => dictContains registry x) = true :=
      List.any_eq_true.mpr ⟨c, hmem, hc⟩
    simp [acqf_input_constructor, hany]
  · intro r2 hok
    obtain ⟨hfresh, hr2⟩ := acqf_input_constructor_ok_elim hok
    subst hr2
    have hcnot : c ∉ classes := by
      intro hmem
      have := List.any_eq_false.mp (by simpa using hfresh) c hmem
      simp [this] at hc
    simp [dictGet_registerAll, hcnot]

/-- Witness for C2: with class `5` already registered (to `10`), registering
`5` again fails with the duplicate error, and a successful registration of a
distinct class `6` leaves the entry of `5` untouched. -/
theorem claim_C2_duplicate_registration_witness :
    acqf_input_constructor (registerAll ([] : List (ℕ × ℕ)) [5] 10) [5] 99 =
        Except.error (BotorchError.valueError duplicateRegMsg) ∧
      dictGet (registerAll (registerAll ([] : List (ℕ × ℕ)) [5] 10) [6] 99) 5 =
        dictGet (registerAll ([] : List (ℕ × ℕ)) [5] 10) 5 := by
  constructor
  · exact (claim_C2_duplicate_registration
      (registerAll ([] : List (ℕ × ℕ)) [5] 10) [5] 99 5 (by decide)).1 (by decide)
  · exact (claim_C2_duplicate_registration
      (registerAll ([] : List (ℕ × ℕ)) [5] 10) [6] 99 5 (by decide)).2
      (registerAll (registerAll ([] : List (ℕ × ℕ)) [5] 10) [6] 99) rfl

/-- Training data as consumed by the input constructors: input points `X`,
observed outcomes `Y` (one row of outcome values per observation), and the
block-design flag the container exposes. -/
structure TrainingData where
  X : List (List ℚ)
  Y : List (List ℚ)
  is_block_design : Bool

/-- Modelled from the spec: an acquisition objective is a transform from a
raw outcome vector to a scalar — either a scalarizing (analytic)
`ScalarizedObjective` or a Monte-Carlo objective (the objective classes
themselves live outside this repository). -/
inductive AcqObjective where
  | scalarized (f : List ℚ → ℚ)
  | mc (f : List ℚ → ℚ)

/-- Apply an objective to one outcome row. -/
def AcqObjective.apply : AcqObjective → List ℚ → ℚ
  | AcqObjective.scalarized f, row => f row
  | AcqObjective.mc f, row => f row

/-- The `isinstance(objective, ScalarizedObjective)` test. -/
def isScalarizedOpt : Option AcqObjective → Bool
  | some (AcqObjective.scalarized _) => true
  | _ => false

/-- Modelled from the spec: the identity objective assumed when none is given
(squeezes the single outcome column, so it reads the first entry of each
single-entry outcome row). -/
def IdentityMCObjective : AcqObjective := AcqObjective.mc List.headI

/-- The number of outcome columns `Y.shape[-1]` of a (rectangular, nonempty)
outcome tensor. -/
def numOutputs (Y : List (List ℚ)) : ℕ := Y.headI.length

/-- Message of the block-design checks (lines 406, 854 and 871 of the
source). -/
def blockDesignMsg : String := "Currently only block designs are supported."

/-- Message of the block-design check of `construct_inputs_noisy_ei`
(line 278 of the source; it lacks the final period). -/
def blockDesignMsgNoisyEI : String := "Currently only block designs are supported"

/-- Message of `get_best_f_analytic` for multi-output data without a
scalarizing objective. -/
def analyticMultiOutputMsg : String :=
  "Analytic acquisition functions currently only work with multi-output models if provided with a ScalarizedObjective."

/-- Message of `get_best_f_mc` for multi-output data without an objective
(kept with the typo of the source). -/
def mcObjectiveRequiredMsg : String :=
  "Acquisition functions require an objective when used with multi-output models (execpt for multi-objective acquisition functions)."

/-- Message of a torch `max` reduction over an empty dimension. -/
def emptyMaxMsg : String := "max(): Expected reduction dim to have a non-zero size."

/-- Torch `.max(...).values` over a one-dimensional tensor: the maximum of a
list of values, raising (as torch does) on an empty reduction. -/
def tensorMax (l : List ℚ) : Except BotorchError ℚ :=
  match l.max? with
  | some m => Except.ok m
  | none => Except.error (BotorchError.runtimeError emptyMaxMsg)

/-- Embedding of `get_best_f_analytic`: require block design; with a
`ScalarizedObjective` reduce each outcome row through it and take the
maximum; otherwise require single-output data and take the maximum of the
single column (`Y.max(-2).values.squeeze(-1)`). -/
def get_best_f_analytic (training_data : TrainingData)
    (objective : Option AcqObjective) : Except BotorchError ℚ :=
  if training_data.is_block_design = false then
    Except.error (BotorchError.notImplemented blockDesignMsg)
  else
    let Y := training_data.Y
    match objective with
    | some (AcqObjective.scalarized f) => tensorMax (Y.map f)
    | _ =>
      if 1 < numOutputs Y then
        Except.error (BotorchError.notImplemented analyticMultiOutputMsg)
      else
        tensorMax (Y.map List.headI)

/-- Embedding of `get_best_f_mc`: require block design; without an objective
require single-output data and assume the identity objective; apply the
objective to the outcome rows and take the maximum. -/
def get_best_f_mc (training_data : TrainingData)
    (objective : Option AcqObjective) : Except BotorchError ℚ :=
  if training_data.is_block_design = false then
    Except.error (BotorchError.notImplemented blockDesignMsg)
  else
    let Y := training_data.Y
    match objective with
    | none =>
      if 1 < numOutputs Y then
        Except.error (BotorchError.unsupported mcObjectiveRequiredMsg)
      else
        tensorMax (Y.map IdentityMCObjective.apply)
    | some obj => tensorMax (Y.map obj.apply)

theorem le_foldl_max (l : List ℚ) (a : ℚ) :
    a ≤ l.foldl max a ∧ ∀ y ∈ l, y ≤ l.foldl max a := by
  induction l generalizing a with
  | nil => exact ⟨le_refl a, by intro y hy; cases hy⟩
  | cons b t ih =>
    obtain ⟨h1, h2⟩ := ih (max a b)
    refine ⟨le_trans (le_max_left a b) h1, ?_⟩
    intro y hy
    rcases List.mem_cons.mp hy with hyb | hyt
    · rw [hyb]; exact le_trans (le_max_right a b) h1
    · exact h2 y hyt

theorem foldl_max_mem (l : List ℚ) (a : ℚ) : l.foldl max a ∈ a :: l := by
  induction l generalizing a with
  | nil => simp
  | cons b t ih =>
    have := ih (max a b)
    rcases List.mem_cons.mp this with h | h
    · rcases max_choice a b with hm | hm <;> rw [List.foldl_cons, h, hm] <;> simp
    · simp [List.foldl_cons, List.mem_cons.mpr (Or.inr (List.mem_cons.mpr (Or.inr h)))]

theorem tensorMax_spec (l : List ℚ) (h : l ≠ []) :
    ∃ m, tensorMax l = Except.ok m ∧ m ∈ l ∧ ∀ y ∈ l, y ≤ m := by
  cases l with
  | nil => exact absurd rfl h
  | cons x xs =>
    refine ⟨xs.foldl max x, ?_, foldl_max_mem xs x, ?_⟩
    · simp [tensorMax, List.max?]
    · intro y hy
      obtain ⟨h1, h2⟩ := le_foldl_max xs x
      rcases List.mem_cons.mp hy with hyx | hyt
      · subst hyx; exact h1
      · exact h2 y hyt

/-- C3: `get_best_f_analytic` raises on non-block-design data; with a
`ScalarizedObjective` it returns the maximum of the outcomes reduced through
that objective; with no scalarizing objective it returns the maximum of
single-output outcomes directly, and raises on multi-output outcomes. -/
theorem claim_C3_best_f_analytic (td : TrainingData) (obj : Option AcqObjective) :
    (td.is_block_design = false →
      get_best_f_analytic td obj =
        Except.error (BotorchError.notImplemented blockDesignMsg)) ∧
    (td.is_block_design = true → ∀ f : List ℚ → ℚ,
      obj = some (AcqObjective.scalarized f) → td.Y ≠ [] →
      ∃ m, get_best_f_analytic td obj = Except.ok m ∧
        m ∈ td.Y.map f ∧ ∀ y ∈ td.Y.map f, y ≤ m) ∧
    (td.is_block_design = true → isScalarizedOpt obj = false →
      numOutputs td.Y = 1 → td.Y ≠ [] →
      ∃ m, get_best_f_analytic td obj = Except.ok m ∧
        m ∈ td.Y.map List.headI ∧ ∀ y ∈ td.Y.map List.headI, y ≤ m) ∧
    (td.is_block_design = true → isScalarizedOpt obj = false →
      1 < numOutputs td.Y →
      get_best_f_analytic td obj =
        Except.error (BotorchError.notImplemented analyticMultiOutputMsg)) := by
  refine ⟨?_, ?_, ?_, ?_⟩
  · intro hb
    simp [get_best_f_analytic, hb]
  · intro hb f hobj hY
    subst hobj
    obtain ⟨m, hm, hmem, hle⟩ := tensorMax_spec (td.Y.map f) (by simpa using hY)
    exact ⟨m, by simp [get_best_f_analytic, hb, hm], hmem, hle⟩
  · intro hb hsc hw hY
    obtain ⟨m, hm, hmem, hle⟩ :=
      tensorMax_spec (td.Y.map List.headI) (by simpa using hY)
    refine ⟨m, ?_, hmem, hle⟩
    have hnw : ¬(1 < numOutputs td.Y) := by rw [hw]; exact lt_irrefl 1
    cases obj with
    | none => simp [get_best_f_analytic, hb, hnw, hm]
    | some o =>
      cases o with
      | scalarized f => simp [isScalarizedOpt] at hsc
      | mc f => simp [get_best_f_analytic, hb, hnw, hm]
  · intro hb hsc hw
    cases obj with
    | none => simp [get_best_f_analytic, hb, hw]
    | some o =>
      cases o with
      | scalarized f => simp [isScalarizedOpt] at hsc
      | mc f => simp [get_best_f_analytic, hb, hw]

/-- Witness for C3: on single-output block-design outcomes `[1, 3, 2]` with
no objective the analytic best value exists and bounds every outcome (and it
evaluates to `3`); non-block-design data raises. -/
theorem claim_C3_best_f_analytic_witness :
    (∃ m, get_best_f_analytic ⟨[[0], [0], [0]], [[1], [3], [2]], true⟩ none =
        Except.ok m ∧
      m ∈ ([[(1 : ℚ)], [3], [2]].map List.headI) ∧
      ∀ y ∈ ([[(1 : ℚ)], [3], [2]].map List.headI), y ≤ m) ∧
    get_best_f_analytic ⟨[[0], [0], [0]], [[1], [3], [2]], true⟩ none =
      Except.ok 3 ∧
    get_best_f_analytic ⟨[[0]], [[1]], false⟩ none =
      Except.error (BotorchError.notImplemented blockDesignMsg) := by
  refine ⟨?_, rfl, ?_⟩
  · exact (claim_C3_best_f_analytic
      ⟨[[0], [0], [0]], [[1], [3], [2]], true⟩ none).2.2.1
      rfl (by decide) (by decide) (by decide)
  · exact (claim_C3_best_f_analytic ⟨[[0]], [[1]], false⟩ none).1 rfl

/-- C4: `get_best_f_mc` raises on non-block-design data; with no objective it
raises on multi-output outcomes and otherwise applies the identity objective
and returns the maximum; with an objective it returns the maximum of the
objective applied to the outcome rows. -/
theorem claim_C4_best_f_mc (td : TrainingData) (obj : Option AcqObjective) :
    (td.is_block_design = false →
      get_best_f_mc td obj =
        Except.error (BotorchError.notImplemented blockDesignMsg)) ∧
    (td.is_block_design = true → obj = none → 1 < numOutputs td.Y →
      get_best_f_mc td obj =
        Except.error (BotorchError.unsupported mcObjectiveRequiredMsg)) ∧
    (td.is_block_design = true → obj = none → numOutputs td.Y = 1 → td.Y ≠ [] →
      ∃ m, get_best_f_mc td obj = Except.ok m ∧
        m ∈ td.Y.map IdentityMCObjective.apply ∧
        ∀ y ∈ td.Y.map IdentityMCObjective.apply, y ≤ m) ∧
    (td.is_block_design = true → ∀ o : AcqObjective, obj = some o → td.Y ≠ [] →
      ∃ m, get_best_f_mc td obj = Except.ok m ∧
        m ∈ td.Y.map o.apply ∧ ∀ y ∈ td.Y.map o.apply, y ≤ m) := by
  refine ⟨?_, ?_, ?_, ?_⟩
  · intro hb
    simp [get_best_f_mc, hb]
  · intro hb hobj hw
    subst hobj
    simp [get_best_f_mc, hb, hw]
  · intro hb hobj hw hY
    subst hobj
    obtain ⟨m, hm, hmem, hle⟩ :=
      tensorMax_spec (td.Y.map IdentityMCObjective.apply) (by simpa using hY)
    have hnw : ¬(1 < numOutputs td.Y) := by rw [hw]; exact lt_irrefl 1
    exact ⟨m, by simp [get_best_f_mc, hb, hnw, hm], hmem, hle⟩
  · intro hb o hobj hY
    subst hobj
    obtain ⟨m, hm, hmem, hle⟩ :=
      tensorMax_spec (td.Y.map o.apply) (by simpa using hY)
    exact ⟨m, by simp [get_best_f_mc, hb, hm], hmem, hle⟩

/-- Witness for C4: two-output block-design outcomes `[[1, 5], [2, 4]]` with
no objective raise; the same data with an objective restricted to the second
column returns that column's maximum (`5`); non-block-design data raises. -/
theorem claim_C4_best_f_mc_witness :
    get_best_f_mc ⟨[[0], [0]], [[1, 5], [2, 4]], true⟩ none =
        Except.error (BotorchError.unsupported mcObjectiveRequiredMsg) ∧
      (∃ m, get_best_f_mc ⟨[[0], [0]], [[1, 5], [2, 4]], true⟩
          (some (AcqObjective.mc (fun row => row.getD 1 0))) = Except.ok m ∧
        m ∈ ([[(1 : ℚ), 5], [2, 4]].map
          (AcqObjective.mc (fun row => row.getD 1 0)).apply) ∧
        ∀ y ∈ ([[(1 : ℚ), 5], [2, 4]].map
          (AcqObjective.mc (fun row => row.getD 1 0)).apply), y ≤ m) ∧
      get_best_f_mc ⟨[[0], [0]], [[1, 5], [2, 4]], true⟩
          (some (AcqObjective.mc (fun row => row.getD 1 0))) = Except.ok 5 ∧
      get_best_f_mc ⟨[[0]], [[1]], false⟩ none =
        Except.error (BotorchError.notImplemented blockDesignMsg) := by
  refine ⟨?_, ?_, rfl, ?_⟩
  · exact (claim_C4_best_f_mc ⟨[[0], [0]], [[1, 5], [2, 4]], true⟩ none).2.1
      rfl rfl (by decide)
  · exact (claim_C4_best_f_mc ⟨[[0], [0]], [[1, 5], [2, 4]], true⟩
      (some (AcqObjective.mc (fun row => row.getD 1 0)))).2.2.2
      rfl (AcqObjective.mc (fun row => row.getD 1 0)) rfl (by decide)
  · exact (claim_C4_best_f_mc ⟨[[0]], [[1]], false⟩ none).1 rfl

/-- The model collaborator, reduced to the single capability the embedded
code queries: a posterior-mean evaluation over observed inputs. -/
structure Model where
  posteriorMean : List (List ℚ) → List (List ℚ)

/-- An opaque MC sampler object, only ever passed through. -/
structure MCSampler where
  tag : ℕ

/-- Result bundle of `construct_inputs_analytic_base`. -/
structure AnalyticBaseBundle where
  model : Model
  objective : Option AcqObjective

/-- Embedding of `construct_inputs_analytic_base`: pass model and objective
through unchanged. -/
def construct_inputs_analytic_base (model : Model) (training_data : TrainingData)
    (objective : Option AcqObjective) : AnalyticBaseBundle :=
  ⟨model, objective⟩

/-- Result bundle of `construct_inputs_best_f`. -/
structure BestFBundle where
  model : Model
  objective : Option AcqObjective
  best_f : ℚ
  maximize : Bool

/-- Embedding of `construct_inputs_best_f`: the base analytic bundle plus
`best_f`. `kwargs_best_f` models `kwargs.get("best_f", ...)`; as in Python,
the fallback `get_best_f_analytic` is evaluated before the lookup selects
the explicit value, so its failure propagates even when `kwargs_best_f` is
present. -/
def construct_inputs_best_f (model : Model) (training_data : TrainingData)
    (objective : Option AcqObjective) (maximize : Bool)
    (kwargs_best_f : Option ℚ) : Except BotorchError BestFBundle :=
  let base := construct_inputs_analytic_base model training_data objective
  match get_best_f_analytic training_data objective with
  | Except.error e => Except.error e
  | Except.ok computed =>
    Except.ok ⟨base.model, base.objective, kwargs_best_f.getD computed, maximize⟩

/-- Result bundle of `construct_inputs_noisy_ei`. -/
structure NoisyEIBundle where
  model : Model
  X_observed : List (List ℚ)
  num_fantasies : ℕ
  maximize : Bool

/-- Embedding of `construct_inputs_noisy_ei`: require block design, then
return the training inputs as observed points. -/
def construct_inputs_noisy_ei (model : Model) (training_data : TrainingData)
    (num_fantasies : ℕ) (maximize : Bool) : Except BotorchError NoisyEIBundle :=
  if training_data.is_block_design = false then
    Except.error (BotorchError.notImplemented blockDesignMsgNoisyEI)
  else
    Except.ok ⟨model, training_data.X, num_fantasies, maximize⟩

/-- Result bundle of `construct_inputs_mc_base`. -/
structure MCBaseBundle where
  model : Model
  objective : Option AcqObjective
  X_pending : Option (List (List ℚ))
  sampler : Option MCSampler

/-- Embedding of `construct_inputs_mc_base`: pass model, objective, pending
points and sampler through unchanged. -/
def construct_inputs_mc_base (model : Model) (training_data : TrainingData)
    (objective : Option AcqObjective) (X_pending : Option (List (List ℚ)))
    (sampler : Option MCSampler) : MCBaseBundle :=
  ⟨model, objective, X_pending, sampler⟩

/-- Result bundle of `construct_inputs_qEI`. -/
structure QEIBundle where
  model : Model
  objective : Option AcqObjective
  X_pending : Option (List (List ℚ))
  sampler : Option MCSampler
  best_f : ℚ

/-- Embedding of `construct_inputs_qEI`: the base MC bundle plus `best_f`;
as in the source, the `kwargs.get` fallback `get_best_f_mc` is evaluated
unconditionally before the explicit value is selected. -/
def construct_inputs_qEI (model : Model) (training_data : TrainingData)
    (objective : Option AcqObjective) (X_pending : Option (List (List ℚ)))
    (sampler : Option MCSampler) (kwargs_best_f : Option ℚ) :
    Except BotorchError QEIBundle :=
  let base := construct_inputs_mc_base model training_data objective X_pending sampler
  match get_best_f_mc training_data objective with
  | Except.error e => Except.error e
  | Except.ok computed =>
    Except.ok ⟨base.model, base.objective, base.X_pending, base.sampler,
      kwargs_best_f.getD computed⟩

/-- Result bundle of `construct_inputs_qNEI`. -/
structure QNEIBundle where
  model : Model
  objective : Option AcqObjective
  X_pending : Option (List (List ℚ))
  sampler : Option MCSampler
  X_baseline : List (List ℚ)
  prune_baseline : Bool

/-- Embedding of `construct_inputs_qNEI`: the base MC bundle plus a baseline;
the block-design check runs only when no explicit `X_baseline` is supplied,
in which case the training inputs are used. -/
def construct_inputs_qNEI (model : Model) (training_data : TrainingData)
    (objective : Option AcqObjective) (X_pending : Option (List (List ℚ)))
    (sampler : Option MCSampler) (X_baseline : Option (List (List ℚ)))
    (prune_baseline : Bool) : Except BotorchError QNEIBundle :=
  let base := construct_inputs_mc_base model training_data objective X_pending sampler
  match X_baseline with
  | none =>
    if training_data.is_block_design = false then
      Except.error (BotorchError.notImplemented blockDesignMsg)
    else
      Except.ok ⟨base.model, base.objective, base.X_pending, base.sampler,
        training_data.X, prune_baseline⟩
  | some xb =>
    Except.ok ⟨base.model, base.objective, base.X_pending, base.sampler,
      xb, prune_baseline⟩

/-- Result bundle of `construct_inputs_qPI`. -/
structure QPIBundle where
  model : Model
  objective : Option AcqObjective
  X_pending : Option (List (List ℚ))
  sampler : Option MCSampler
  tau : ℚ
  best_f : ℚ

/-- Embedding of `construct_inputs_qPI`: the base MC bundle plus `tau` and
`best_f`; unlike `construct_inputs_qEI`, `best_f` is an explicit parameter
and `get_best_f_mc` is invoked only when it is `None`. -/
def construct_inputs_qPI (model : Model) (training_data : TrainingData)
    (objective : Option AcqObjective) (X_pending : Option (List (List ℚ)))
    (sampler : Option MCSampler) (tau : ℚ) (best_f : Option ℚ) :
    Except BotorchError QPIBundle :=
  let base := construct_inputs_mc_base model training_data objective X_pending sampler
  match best_f with
  | none =>
    match get_best_f_mc training_data objective with
    | Except.error e => Except.error e
    | Except.ok computed =>
      Except.ok ⟨base.model, base.objective, base.X_pending, base.sampler,
        tau, computed⟩
  | some v =>
    Except.ok ⟨base.model, base.objective, base.X_pending, base.sampler, tau, v⟩

/-- C5 (amended): for every non-block-design training-data input, the
analytic and Monte Carlo best-f extractions fail with the documented
block-design error, as does every constructor invocation that performs them
(`construct_inputs_best_f` and `construct_inputs_qEI` always — even with an
explicit `best_f` keyword — and `construct_inputs_qPI` when no explicit
`best_f` is supplied); the analytic `NoisyExpectedImprovement` constructor
always fails with its documented block-design error, and the
`qNoisyExpectedImprovement` constructor fails with it when no explicit
`X_baseline` is supplied. -/
theorem claim_C5_block_design_failures (td : TrainingData)
    (hb : td.is_block_design = false) :
    (∀ obj, get_best_f_analytic td obj =
      Except.error (BotorchError.notImplemented blockDesignMsg)) ∧
    (∀ obj, get_best_f_mc td obj =
      Except.error (BotorchError.notImplemented blockDesignMsg)) ∧
    (∀ model obj maximize kwargs_best_f,
      construct_inputs_best_f model td obj maximize kwargs_best_f =
        Except.error (BotorchError.notImplemented blockDesignMsg)) ∧
    (∀ model obj X_pending sampler kwargs_best_f,
      construct_inputs_qEI model td obj X_pending sampler kwargs_best_f =
        Except.error (BotorchError.notImplemented blockDesignMsg)) ∧
    (∀ model obj X_pending sampler tau,
      construct_inputs_qPI model td obj X_pending sampler tau none =
        Except.error (BotorchError.notImplemented blockDesignMsg)) ∧
    (∀ model num_fantasies maximize,
      construct_inputs_noisy_ei model td num_fantasies maximize =
        Except.error (BotorchError.notImplemented blockDesignMsgNoisyEI)) ∧
    (∀ model obj X_pending sampler prune_baseline,
      construct_inputs_qNEI model td obj X_pending sampler none prune_baseline =
        Except.error (BotorchError.notImplemented blockDesignMsg)) := by
  have ha : ∀ obj, get_best_f_analytic td obj =
      Except.error (BotorchError.notImplemented blockDesignMsg) := by
    intro obj; simp [get_best_f_analytic, hb]
  have hm : ∀ obj, get_best_f_mc td obj =
      Except.error (BotorchError.notImplemented blockDesignMsg) := by
    intro obj; simp [get_best_f_mc, hb]
  refine ⟨ha, hm, ?_, ?_, ?_, ?_, ?_⟩
  · intro model obj maximize kwargs_best_f
    simp [construct_inputs_best_f, ha obj]
  · intro model obj X_pending sampler kwargs_best_f
    simp [construct_inputs_qEI, hm obj]
  · intro model obj X_pending sampler tau
    simp [construct_inputs_qPI, hm obj]
  · intro model num_fantasies maximize
    simp [construct_inputs_noisy_ei, hb]
  · intro model obj X_pending sampler prune_baseline
    simp [construct_inputs_qNEI, hb]

/-- Witness for C5 (amended): on concrete non-block-design training data each
derivation fails with its documented block-design error. -/
theorem claim_C5_block_design_failures_witness :
    get_best_f_analytic ⟨[[0]], [[1]], false⟩ none =
        Except.error (BotorchError.notImplemented blockDesignMsg) ∧
      construct_inputs_qEI ⟨fun _ => []⟩ ⟨[[0]], [[1]], false⟩ none none none
          (some 7) =
        Except.error (BotorchError.notImplemented blockDesignMsg) ∧
      construct_inputs_noisy_ei ⟨fun _ => []⟩ ⟨[[0]], [[1]], false⟩ 20 true =
        Except.error (BotorchError.notImplemented blockDesignMsgNoisyEI) ∧
      construct_inputs_qNEI ⟨fun _ => []⟩ ⟨[[0]], [[1]], false⟩ none none none
          none false =
        Except.error (BotorchError.notImplemented blockDesignMsg) := by
  refine ⟨?_, ?_, ?_, ?_⟩
  · exact (claim_C5_block_design_failures ⟨[[0]], [[1]], false⟩ rfl).1 none
  · exact (claim_C5_block_design_failures ⟨[[0]], [[1]], false⟩ rfl).2.2.2.1
      ⟨fun _ => []⟩ none none none (some 7)
  · exact (claim_C5_block_design_failures ⟨[[0]], [[1]], false⟩ rfl).2.2.2.2.2.1
      ⟨fun _ => []⟩ 20 true
  · exact (claim_C5_block_design_failures ⟨[[0]], [[1]], false⟩ rfl).2.2.2.2.2.2
      ⟨fun _ => []⟩ none none none false

/-- Counterexample to C5 as stated: on non-block-design training data the
`qNoisyExpectedImprovement` constructor does NOT fail when an explicit
`X_baseline` is supplied — it succeeds, returning the supplied baseline —
so "every noisy-EI derivation fails" is false for that invocation. -/
theorem claim_C5_counterexample :
    construct_inputs_qNEI ⟨fun _ => []⟩ ⟨[[0]], [[1]], false⟩ none none none
        (some [[2]]) false =
      Except.ok ⟨⟨fun _ => []⟩, none, none, none, [[2]], false⟩ := rfl

/-- C9 (implicit): supplying an explicit `best_f` keyword does not bypass the
data-shape preconditions of `construct_inputs_best_f` and
`construct_inputs_qEI`: on non-block-design data, or multi-output data
lacking the required objective, both raise even though the keyword carries an
explicit value, because the fallback best-f computation is evaluated
unconditionally. -/
theorem claim_C9_explicit_best_f_no_bypass (model : Model) (td : TrainingData)
    (v : ℚ) :
    (∀ obj maximize,
      (td.is_block_design = false ∨
        (isScalarizedOpt obj = false ∧ 1 < numOutputs td.Y)) →
      ∃ e, construct_inputs_best_f model td obj maximize (some v) =
        Except.error e) ∧
    (∀ obj X_pending sampler,
      (td.is_block_design = false ∨ (obj = none ∧ 1 < numOutputs td.Y)) →
      ∃ e, construct_inputs_qEI model td obj X_pending sampler (some v) =
        Except.error e) := by
  constructor
  · intro obj maximize h
    have herr : ∃ e, get_best_f_analytic td obj = Except.error e := by
      rcases h with hb | ⟨hsc, hw⟩
      · exact ⟨_, (claim_C3_best_f_analytic td obj).1 hb⟩
      · cases hb : td.is_block_design with
        | false => exact ⟨_, (claim_C3_best_f_analytic td obj).1 hb⟩
        | true => exact ⟨_, (claim_C3_best_f_analytic td obj).2.2.2 hb hsc hw⟩
    obtain ⟨e, he⟩ := herr
    exact ⟨e, by simp [construct_inputs_best_f, he]⟩
  · intro obj X_pending sampler h
    have herr : ∃ e, get_best_f_mc td obj = Except.error e := by
      rcases h with hb | ⟨hobj, hw⟩
      · exact ⟨_, (claim_C4_best_f_mc td obj).1 hb⟩
      · cases hb : td.is_block_design with
        | false => exact ⟨_, (claim_C4_best_f_mc td obj).1 hb⟩
        | true => exact ⟨_, (claim_C4_best_f_mc td obj).2.1 hb hobj hw⟩
    obtain ⟨e, he⟩ := herr
    exact ⟨e, by simp [construct_inputs_qEI, he]⟩

/-- Witness for C9: on concrete non-block-design data, and on concrete
two-output block-design data without an objective, both constructors raise
despite the explicit `best_f := 7`. -/
theorem claim_C9_explicit_best_f_no_bypass_witness :
    (∃ e, construct_inputs_best_f ⟨fun _ => []⟩ ⟨[[0]], [[1]], false⟩ none true
        (some 7) = Except.error e) ∧
      (∃ e, construct_inputs_qEI ⟨fun _ => []⟩ ⟨[[0], [0]], [[1, 5], [2, 4]], true⟩
        none none none (some 7) = Except.error e) := by
  constructor
  · exact (claim_C9_explicit_best_f_no_bypass ⟨fun _ => []⟩
      ⟨[[0]], [[1]], false⟩ 7).1 none true (Or.inl rfl)
  · exact (claim_C9_explicit_best_f_no_bypass ⟨fun _ => []⟩
      ⟨[[0], [0]], [[1, 5], [2, 4]], true⟩ 7).2 none none none
      (Or.inr ⟨rfl, by decide⟩)

/-- C10 (implicit): `construct_inputs_qPI` with an explicit `best_f` never
invokes `get_best_f_mc`: for every training-data input — block design or
not, multi-output without an objective or not — it succeeds and places the
supplied value in the bundle unchanged. -/
theorem claim_C10_qpi_explicit_best_f (model : Model) (td : TrainingData)
    (obj : Option AcqObjective) (X_pending : Option (List (List ℚ)))
    (sampler : Option MCSampler) (tau : ℚ) (v : ℚ) :
    construct_inputs_qPI model td obj X_pending sampler tau (some v) =
      Except.ok ⟨model, obj, X_pending, sampler, tau, v⟩ := rfl

/-- Message of the key-set check of `construct_inputs_mf_base` (the source
interpolates the two key sets; the static text is kept). -/
def mfKeysMsg : String :=
  "Must provide the same indices for target_fidelities and fidelity_weights."

/-- The affine cost model built over the fidelity weights and the fixed cost
intercept (an external collaborator, recorded by its construction data). -/
structure AffineFidelityCostModel where
  fidelity_weights : List (ℕ × ℚ)
  fixed_cost : ℚ

/-- The inverse-cost-weighted utility wrapping the cost model. -/
structure InverseCostWeightedUtility where
  cost_model : AffineFidelityCostModel

/-- Modelled from the spec: `expand_trace_observations` (outside this
repository) expands a candidate batch with `num_trace_obs` trace observations
at lower fidelities along the given fidelity dimensions. -/
def expand_trace_observations (X : List (List ℚ)) (fidelity_dims : List ℕ)
    (num_trace_obs : ℕ) : List (List ℚ) :=
  X.foldr
    (fun row acc =>
      row ::
        ((List.range num_trace_obs).map (fun i =>
          (List.range row.length).map (fun j =>
            if j ∈ fidelity_dims then
              ((num_trace_obs - i : ℕ) : ℚ) / ((num_trace_obs : ℚ) + 1) *
                row.getD j 0
            else row.getD j 0)) ++ acc))
    []

/-- Modelled from the spec: `project_to_target_fidelity` (outside this
repository) projects each candidate to the target fidelity by setting every
fidelity feature to its target value. -/
def project_to_target_fidelity (X : List (List ℚ))
    (target_fidelities : List (ℕ × ℚ)) : List (List ℚ) :=
  X.map (fun row =>
    (List.range row.length).map (fun j =>
      match dictGet target_fidelities j with
      | some v => v
      | none => row.getD j 0))

/-- Result bundle of `construct_inputs_mf_base`: the target fidelities, the
cost-aware utility, and the two callable transforms. -/
structure MFBaseBundle where
  target_fidelities : List (ℕ × ℚ)
  cost_aware_utility : InverseCostWeightedUtility
  expand : List (List ℚ) → List (List ℚ)
  project : List (List ℚ) → List (List ℚ)

/-- Embedding of `construct_inputs_mf_base`: default the fidelity weights to
`1.0` per target key, fail unless the two key sets coincide, then assemble
the cost-aware utility and the expand/project closures. -/
def construct_inputs_mf_base (target_fidelities : List (ℕ × ℚ))
    (fidelity_weights : Option (List (ℕ × ℚ))) (cost_intercept : ℚ)
    (num_trace_observations : ℕ) : Except BotorchError MFBaseBundle :=
  let fw := fidelity_weights.getD
    (target_fidelities.map (fun p => (p.1, (1 : ℚ))))
  if (target_fidelities.map Prod.fst).toFinset ≠ (fw.map Prod.fst).toFinset then
    Except.error (BotorchError.runtimeError mfKeysMsg)
  else
    Except.ok
      ⟨target_fidelities,
        ⟨⟨fw, cost_intercept⟩⟩,
        fun X => expand_trace_observations X
          (List.insertionSort (fun a b => a ≤ b) (target_fidelities.map Prod.fst))
          num_trace_observations,
        fun X => project_to_target_fidelity X target_fidelities⟩

/-- C6: the multi-fidelity base derivation fails exactly when the key set of
the (possibly defaulted) fidelity weights differs from the key set of the
target fidelities; when they coincide — in particular when the weights are
omitted and default to `1.0` per target key — it succeeds and its result
carries the callable expand and project transforms. -/
theorem claim_C6_mf_base (target_fidelities : List (ℕ × ℚ))
    (fidelity_weights : Option (List (ℕ × ℚ))) (cost_intercept : ℚ)
    (num_trace_observations : ℕ) :
    ((target_fidelities.map Prod.fst).toFinset ≠
        ((fidelity_weights.getD
          (target_fidelities.map (fun p => (p.1, (1 : ℚ))))).map Prod.fst).toFinset →
      construct_inputs_mf_base target_fidelities fidelity_weights cost_intercept
          num_trace_observations =
        Except.error (BotorchError.runtimeError mfKeysMsg)) ∧
    ((target_fidelities.map Prod.fst).toFinset =
        ((fidelity_weights.getD
          (target_fidelities.map (fun p => (p.1, (1 : ℚ))))).map Prod.fst).toFinset →
      construct_inputs_mf_base target_fidelities fidelity_weights cost_intercept
          num_trace_observations =
        Except.ok
          ⟨target_fidelities,
            ⟨⟨fidelity_weights.getD
                (target_fidelities.map (fun p => (p.1, (1 : ℚ)))),
              cost_intercept⟩⟩,
            fun X => expand_trace_observations X
              (List.insertionSort (fun a b => a ≤ b)
                (target_fidelities.map Prod.fst))
              num_trace_observations,
            fun X => project_to_target_fidelity X target_fidelities⟩) := by
  constructor
  · intro h
    simp only [construct_inputs_mf_base, if_pos h]
  · intro h
    simp only [construct_inputs_mf_base]
    rw [if_neg (by simp [h])]

/-- Witness for C6: `target_fidelities = {0: 1.0, 1: 1.0}` with mismatched
`fidelity_weights = {0: 1.0}` fails; the same targets with the weights
omitted succeed with the expand/project closures in the bundle. -/
theorem claim_C6_mf_base_witness :
    construct_inputs_mf_base [(0, 1), (1, 1)] (some [(0, 1)]) 1 0 =
        Except.error (BotorchError.runtimeError mfKeysMsg) ∧
      construct_inputs_mf_base [(0, 1), (1, 1)] none 1 0 =
        Except.ok
          ⟨[(0, 1), (1, 1)],
            ⟨⟨[(0, 1), (1, 1)], 1⟩⟩,
            fun X => expand_trace_observations X
              (List.insertionSort (fun a b => a ≤ b) [0, 1]) 0,
            fun X => project_to_target_fidelity X [(0, 1), (1, 1)]⟩ := by
  constructor
  · exact (claim_C6_mf_base [(0, 1), (1, 1)] (some [(0, 1)]) 1 0).1 (by decide)
  · exact (claim_C6_mf_base [(0, 1), (1, 1)] none 1 0).2 (by decide)

/-- Message of the outcome-constraint check of `construct_inputs_EHVI`. -/
def ehviConstraintsMsg : String := "EHVI does not yet support outcome constraints."

/-- A multi-output objective: a transform on outcome vectors (applied
row-wise to outcome tensors). -/
abbrev MOObjective := List ℚ → List ℚ

/-- Modelled from the spec: the identity multi-output objective used when no
objective is given (the class is outside this repository). -/
def IdentityAnalyticMultiOutputObjective : MOObjective := id

/-- Modelled from the spec: `get_default_partitioning_alpha` (outside this
repository) supplies the default alpha; the spec fixes only that `alpha = 0`
selects the exact partitioning, so the default is modelled as `0`. The
claims below always pass an explicit alpha, so this value never decides
them. -/
def get_default_partitioning_alpha (num_objectives : ℕ) : ℚ := 0

/-- The non-dominated partitioning collaborator, recorded by which algorithm
was selected and with what construction data: the exact
`FastNondominatedPartitioning` or the approximate alpha-thresholded
`NondominatedPartitioning`. -/
inductive Partitioning where
  | fastNondominated (ref_point : List ℚ) (Y : List (List ℚ))
  | nondominated (ref_point : List ℚ) (Y : List (List ℚ)) (alpha : ℚ)

/-- Result bundle of `construct_inputs_EHVI`. -/
structure EHVIBundle where
  model : Model
  ref_point : List ℚ
  partitioning : Partitioning
  objective : MOObjective

/-- Embedding of `construct_inputs_EHVI`: reject outcome constraints, resolve
alpha (explicit `kwargs` value or default), default the objective to the
identity, compute the reference point as the objective applied to the
thresholds, resolve `Y_pmean` (explicit `kwargs` value or the model's
posterior mean over the training inputs), and select the approximate
partitioning when `alpha > 0`, the exact one otherwise. -/
def construct_inputs_EHVI (model : Model) (training_data : TrainingData)
    (objective_thresholds : List ℚ) (objective : Option MOObjective)
    (outcome_constraints : Option (List (List ℚ) × List ℚ))
    (kwargs_alpha : Option ℚ) (kwargs_Y_pmean : Option (List (List ℚ))) :
    Except BotorchError EHVIBundle :=
  let num_objectives := objective_thresholds.length
  if outcome_constraints.isSome then
    Except.error (BotorchError.notImplemented ehviConstraintsMsg)
  else
    let X_observed := training_data.X
    let alpha := kwargs_alpha.getD (get_default_partitioning_alpha num_objectives)
    let obj := objective.getD IdentityAnalyticMultiOutputObjective
    let ref_point := obj objective_thresholds
    let Y_pmean := kwargs_Y_pmean.getD (model.posteriorMean X_observed)
    let partitioning :=
      if 0 < alpha then
        Partitioning.nondominated ref_point (Y_pmean.map obj) alpha
      else
        Partitioning.fastNondominated ref_point (Y_pmean.map obj)
    Except.ok ⟨model, ref_point, partitioning, obj⟩

/-- C7: in the hypervolume-improvement derivation, `alpha = 0` selects the
exact `FastNondominatedPartitioning` and `alpha > 0` selects the approximate
`NondominatedPartitioning` with that alpha; in both cases the returned
reference point equals the objective applied to the user-supplied objective
thresholds. -/
theorem claim_C7_ehvi_partitioning (model : Model) (td : TrainingData)
    (objective_thresholds : List ℚ) (objective : Option MOObjective)
    (kwargs_Y_pmean : Option (List (List ℚ))) :
    (∃ b Yp, construct_inputs_EHVI model td objective_thresholds objective none
        (some 0) kwargs_Y_pmean = Except.ok b ∧
      b.ref_point =
        (objective.getD IdentityAnalyticMultiOutputObjective)
          objective_thresholds ∧
      b.partitioning = Partitioning.fastNondominated b.ref_point Yp) ∧
    (∀ alpha : ℚ, 0 < alpha →
      ∃ b Yp, construct_inputs_EHVI model td objective_thresholds objective none
          (some alpha) kwargs_Y_pmean = Except.ok b ∧
        b.ref_point =
          (objective.getD IdentityAnalyticMultiOutputObjective)
            objective_thresholds ∧
        b.partitioning = Partitioning.nondominated b.ref_point Yp alpha) := by
  constructor
  · refine ⟨⟨model,
      (objective.getD IdentityAnalyticMultiOutputObjective) objective_thresholds,
      Partitioning.fastNondominated
        ((objective.getD IdentityAnalyticMultiOutputObjective)
          objective_thresholds)
        ((kwargs_Y_pmean.getD (model.posteriorMean td.X)).map
          (objective.getD IdentityAnalyticMultiOutputObjective)),
      objective.getD IdentityAnalyticMultiOutputObjective⟩,
      ((kwargs_Y_pmean.getD (model.posteriorMean td.X)).map
        (objective.getD IdentityAnalyticMultiOutputObjective)), ?_, rfl, rfl⟩
    simp [construct_inputs_EHVI]
  · intro alpha ha
    refine ⟨⟨model,
      (objective.getD IdentityAnalyticMultiOutputObjective) objective_thresholds,
      Partitioning.nondominated
        ((objective.getD IdentityAnalyticMultiOutputObjective)
          objective_thresholds)
        ((kwargs_Y_pmean.getD (model.posteriorMean td.X)).map
          (objective.getD IdentityAnalyticMultiOutputObjective)) alpha,
      objective.getD IdentityAnalyticMultiOutputObjective⟩,
      ((kwargs_Y_pmean.getD (model.posteriorMean td.X)).map
        (objective.getD IdentityAnalyticMultiOutputObjective)), ?_, rfl, rfl⟩
    simp [construct_inputs_EHVI, ha]

/-- Witness for C7: at concrete inputs, `alpha = 1 > 0` selects the
approximate partitioning with that alpha and the reference point equals the
thresholds under the identity objective. -/
theorem claim_C7_ehvi_partitioning_witness :
    ∃ b Yp, construct_inputs_EHVI ⟨fun _ => [[1, 2]]⟩ ⟨[[0]], [[1, 2]], true⟩
        [0, 0] none none (some 1) none = Except.ok b ∧
      b.ref_point =
        (Option.getD (none : Option MOObjective)
          IdentityAnalyticMultiOutputObjective) [0, 0] ∧
      b.partitioning = Partitioning.nondominated b.ref_point Yp 1 :=
  (claim_C7_ehvi_partitioning ⟨fun _ => [[1, 2]]⟩ ⟨[[0]], [[1, 2]], true⟩
    [0, 0] none none).2 1 (by norm_num)

/-- The numeric options looked up in `optimizer_options` (each `None` when
the caller's table has no entry, so the documented default applies). -/
structure OptimizerOptions where
  num_restarts : Option ℕ
  raw_samples : Option ℕ
  batch_limit : Option ℕ
  maxiter : Option ℕ
  nonnegative : Option Bool
  method : Option String

/-- The empty `optimizer_options` table. -/
def OptimizerOptions.empty : OptimizerOptions :=
  ⟨none, none, none, none, none, none⟩

/-- The default line-search method passed to the optimizer. -/
def methodDefault : String := "L-BFGS-B"

/-- The `options` dict assembled for `optimize_acqf`. -/
structure OptAcqfOptions where
  batch_limit : ℕ
  maxiter : ℕ
  nonnegative : Bool
  method : String

/-- The acquisition surrogate assembled by `optimize_objective`, recorded by
which class was instantiated and with what construction data: `qSimpleRegret`
with a (Sobol-QMC or IID) sampler for an MC objective, `PosteriorMean` for a
scalarized objective, optionally wrapped in a
`FixedFeatureAcquisitionFunction`. -/
inductive AcqSurrogate where
  | qSimpleRegretChoice (model : Model) (objective : AcqObjective) (qmc : Bool)
      (mc_samples : ℕ) (seed : Option ℤ)
  | posteriorMeanChoice (model : Model) (objective : AcqObjective)
  | fixedFeatureWrap (inner : AcqSurrogate) (d : ℕ) (columns : List ℕ)
      (values : List ℚ)

/-- The full argument record passed to the external single-best-point
optimizer `optimize_acqf`. Inequality constraints are per-row sparse triples
`(indices, coefficients, rhs)` meaning `sum(coefficients * x[indices]) >=
rhs`. -/
structure OptimizeAcqfCall where
  acq_function : AcqSurrogate
  bounds : List (List ℚ)
  q : ℕ
  num_restarts : ℕ
  raw_samples : ℕ
  options : OptAcqfOptions
  inequality_constraints : Option (List (List ℕ × List ℚ × ℚ))
  batch_initial_conditions : Option (List (List ℚ))
  return_best_only : Bool
  sequential : Bool

/-- The `isinstance(objective, MCAcquisitionObjective)` test. -/
def AcqObjective.isMC : AcqObjective → Bool
  | AcqObjective.mc _ => true
  | AcqObjective.scalarized _ => false

/-- Embedding of `optimize_objective` up to the opaque `optimize_acqf` call:
select the acquisition surrogate by objective kind, optionally wrap it to
hold fixed features (restricting the bounds to free dimensions), translate
any linear constraints `A x <= b` into per-row sparse triples with negated
coefficients and bounds, and assemble the full optimizer call with the
documented defaults. The function returns the record of arguments passed to
the external optimizer. -/
def optimize_objective (model : Model) (objective : AcqObjective)
    (bounds : List (List ℚ)) (q : ℕ)
    (linear_constraints : Option (List (List ℚ) × List ℚ))
    (fixed_features : Option (List (ℕ × ℚ)))
    (qmc : Bool) (mc_samples : ℕ) (seed_inner : Option ℤ)
    (optimizer_options : Option OptimizerOptions)
    (batch_initial_conditions : Option (List (List ℚ)))
    (sequential : Bool) : OptimizeAcqfCall :=
  let opts := optimizer_options.getD OptimizerOptions.empty
  let acq0 : AcqSurrogate :=
    if objective.isMC then
      AcqSurrogate.qSimpleRegretChoice model objective qmc mc_samples seed_inner
    else
      AcqSurrogate.posteriorMeanChoice model objective
  let wrapped :=
    match fixed_features with
    | some ff =>
      if ff.isEmpty then (acq0, bounds)
      else
        let free_feature_dims :=
          (List.range bounds.length).filter (fun i => (dictGet ff i).isNone)
        (AcqSurrogate.fixedFeatureWrap acq0 bounds.headI.length
            (ff.map Prod.fst) (ff.map Prod.snd),
          bounds.map (fun (row : List ℚ) =>
            free_feature_dims.map (fun j => row.getD j 0)))
    | none => (acq0, bounds)
  let inequality_constraints :=
    match linear_constraints with
    | none => none
    | some (A, b) =>
      some ((List.range A.length).map (fun i =>
        let row := A.getD i []
        let indicies := (List.range row.length).filter
          (fun j => decide (row.getD j 0 ≠ 0))
        (indicies,
          indicies.map (fun j => -(row.getD j 0)),
          -(b.getD i 0))))
  ⟨wrapped.1, wrapped.2, q,
    opts.num_restarts.getD 60,
    opts.raw_samples.getD 1024,
    ⟨opts.batch_limit.getD 8, opts.maxiter.getD 200,
      opts.nonnegative.getD false, opts.method.getD methodDefault⟩,
    inequality_constraints,
    batch_initial_conditions,
    true,
    sequential⟩

/-- The optimizer's reading of a sparse triple: the sum of the coefficients
times the selected coordinates of `x`. -/
def constraintLHS (indices : List ℕ) (coefficients : List ℚ) (x : List ℚ) : ℚ :=
  ((indices.zip coefficients).map (fun p => p.2 * x.getD p.1 0)).sum

/-- The dense reading of one constraint row: the dot product of the row with
`x` over all the row's coordinates. -/
def dotRow (row x : List ℚ) : ℚ :=
  ((List.range row.length).map (fun j => row.getD j 0 * x.getD j 0)).sum

theorem sum_map_filter_of_zero (l : List ℕ) (p : ℕ → Bool) (f : ℕ → ℚ)
    (h : ∀ j ∈ l, p j = false → f j = 0) :
    ((l.filter p).map f).sum = (l.map f).sum := by
  induction l with
  | nil => rfl
  | cons a t ih =>
    have ht : ∀ j ∈ t, p j = false → f j = 0 := by
      intro j hj hpj
      exact h j (List.mem_cons.mpr (Or.inr hj)) hpj
    cases hpa : p a with
    | true => simp [List.filter_cons, hpa, ih ht]
    | false =>
      have hfa : f a = 0 := h a (List.mem_cons.mpr (Or.inl rfl)) hpa
      simp [List.filter_cons, hpa, ih ht, hfa]

theorem sum_map_neg_q (l : List ℕ) (g : ℕ → ℚ) :
    (l.map (fun j => -(g j))).sum = -((l.map g).sum) := by
  induction l with
  | nil => simp
  | cons a t ih =>
    simp only [List.map_cons, List.sum_cons, ih, neg_add]

theorem zip_self_map {γ : Type} (l : List ℕ) (f : ℕ → γ) :
    l.zip (l.map f) = l.map (fun a => (a, f a)) := by
  induction l with
  | nil => rfl
  | cons a t ih => simp [List.zip_cons_cons, ih]

theorem constraintLHS_neg_row (idx : List ℕ) (row x : List ℚ) :
    constraintLHS idx (idx.map (fun j => -(row.getD j 0))) x =
      -(((idx.map (fun j => row.getD j 0 * x.getD j 0))).sum) := by
  unfold constraintLHS
  rw [zip_self_map]
  rw [List.map_map]
  have : ((fun p : ℕ × ℚ => p.2 * x.getD p.1 0) ∘
      fun a => (a, -(row.getD a 0))) =
      fun j => -(row.getD j 0 * x.getD j 0) := by
    funext j
    simp [Function.comp]
  rw [this, sum_map_neg_q idx (fun j => row.getD j 0 * x.getD j 0)]

/-- C8: in `optimize_objective`, a linear-constraint pair `(A, b)` encoding
`A x <= b` is translated into exactly one sparse triple per row of `A`: the
indices of the nonzero entries of the row, the negated coefficients at those
indices, and the negated bound; under the optimizer's convention
`sum(coefficients * x[indices]) >= rhs` each triple holds exactly for the
points `x` with `A[i] . x <= b[i]`. When no linear constraints are given, no
inequality constraints are passed. -/
theorem claim_C8_linear_constraint_translation (model : Model)
    (objective : AcqObjective) (bounds : List (List ℚ)) (q : ℕ)
    (fixed_features : Option (List (ℕ × ℚ))) (qmc : Bool) (mc_samples : ℕ)
    (seed_inner : Option ℤ) (optimizer_options : Option OptimizerOptions)
    (batch_initial_conditions : Option (List (List ℚ))) (sequential : Bool) :
    ((optimize_objective model objective bounds q none fixed_features qmc
        mc_samples seed_inner optimizer_options batch_initial_conditions
        sequential).inequality_constraints = none) ∧
    (∀ (A : List (List ℚ)) (b : List ℚ), ∃ cs,
      (optimize_objective model objective bounds q (some (A, b)) fixed_features
          qmc mc_samples seed_inner optimizer_options batch_initial_conditions
          sequential).inequality_constraints = some cs ∧
      cs.length = A.length ∧
      ∀ i, i < A.length →
        (∀ j, j ∈ (cs.getD i ([], [], 0)).1 ↔
          (j < (A.getD i []).length ∧ (A.getD i []).getD j 0 ≠ 0)) ∧
        (cs.getD i ([], [], 0)).2.1 =
          (cs.getD i ([], [], 0)).1.map (fun j => -((A.getD i []).getD j 0)) ∧
        (cs.getD i ([], [], 0)).2.2 = -(b.getD i 0) ∧
        (∀ x : List ℚ,
          constraintLHS (cs.getD i ([], [], 0)).1 (cs.getD i ([], [], 0)).2.1 x ≥
              (cs.getD i ([], [], 0)).2.2 ↔
            dotRow (A.getD i []) x ≤ b.getD i 0)) := by
  constructor
  · rfl
  · intro A b
    refine ⟨(List.range A.length).map (fun i =>
      let row := A.getD i []
      let indicies := (List.range row.length).filter
        (fun j => decide (row.getD j 0 ≠ 0))
      (indicies,
        indicies.map (fun j => -(row.getD j 0)),
        -(b.getD i 0))), rfl, by simp, ?_⟩
    intro i hi
    have hget : ((List.range A.length).map (fun i =>
        let row := A.getD i []
        let indicies := (List.range row.length).filter
          (fun j => decide (row.getD j 0 ≠ 0))
        (indicies,
          indicies.map (fun j => -(row.getD j 0)),
          -(b.getD i 0)))).getD i ([], [], 0) =
        (let row := A.getD i []
         let indicies := (List.range row.length).filter
           (fun j => decide (row.getD j 0 ≠ 0))
         (indicies,
           indicies.map (fun j => -(row.getD j 0)),
           -(b.getD i 0))) := by
      rw [List.getD_eq_getElem?_getD, List.getElem?_map, List.getElem?_range hi]
      rfl
    rw [hget]
    refine ⟨?_, rfl, rfl, ?_⟩
    · intro j
      simp [List.mem_filter, List.mem_range]
    · intro x
      rw [constraintLHS_neg_row]
      have hfilter :
          (((List.range (A.getD i []).length).filter
            (fun j => decide ((A.getD i []).getD j 0 ≠ 0))).map
              (fun j => (A.getD i []).getD j 0 * x.getD j 0)).sum =
          ((List.range (A.getD i []).length).map
            (fun j => (A.getD i []).getD j 0 * x.getD j 0)).sum := by
        apply sum_map_filter_of_zero
        intro j hj hpj
        have h0 : (A.getD i []).getD j 0 = 0 :=
          not_not.mp (of_decide_eq_false hpj)
        rw [h0, zero_mul]
      rw [hfilter]
      show -(dotRow (A.getD i []) x) ≥ -(b.getD i 0) ↔
        dotRow (A.getD i []) x ≤ b.getD i 0
      constructor
      · intro hle
        exact (neg_le_neg_iff).mp hle
      · intro hle
        exact neg_le_neg hle

/-- Witness for C8: for the concrete pair `A = [[2, 0], [0, -1]]`,
`b = [4, 3]`, the first emitted triple holds at `x = [1, 0]` exactly as
`2 * 1 <= 4` does. -/
theorem claim_C8_linear_constraint_translation_witness :
    ∃ cs,
      (optimize_objective ⟨fun _ => []⟩ (AcqObjective.scalarized List.headI)
          [[0, 0], [1, 1]] 1 (some ([[2, 0], [0, -1]], [4, 3])) none true 512
          none none none false).inequality_constraints = some cs ∧
      cs.length = ([[(2 : ℚ), 0], [0, -1]] : List (List ℚ)).length ∧
      ∀ i, i < ([[(2 : ℚ), 0], [0, -1]] : List (List ℚ)).length →
        (∀ j, j ∈ (cs.getD i ([], [], 0)).1 ↔
          (j < (([[(2 : ℚ), 0], [0, -1]] : List (List ℚ)).getD i []).length ∧
            (([[(2 : ℚ), 0], [0, -1]] : List (List ℚ)).getD i []).getD j 0 ≠ 0)) ∧
        (cs.getD i ([], [], 0)).2.1 =
          (cs.getD i ([], [], 0)).1.map
            (fun j => -((([[(2 : ℚ), 0], [0, -1]] : List (List ℚ)).getD i []).getD j 0)) ∧
        (cs.getD i ([], [], 0)).2.2 = -(([(4 : ℚ), 3] : List ℚ).getD i 0) ∧
        (∀ x : List ℚ,
          constraintLHS (cs.getD i ([], [], 0)).1 (cs.getD i ([], [], 0)).2.1 x ≥
              (cs.getD i ([], [], 0)).2.2 ↔
            dotRow (([[(2 : ℚ), 0], [0, -1]] : List (List ℚ)).getD i []) x ≤
              ([(4 : ℚ), 3] : List ℚ).getD i 0) :=
  (claim_C8_linear_constraint_translation ⟨fun _ => []⟩
    (AcqObjective.scalarized List.headI) [[0, 0], [1, 1]] 1 none true 512 none
    none none false).2 [[2, 0], [0, -1]] [4, 3]
